import Mathlib

/-!
Verification of the SmartLog_AI audio pipeline core: a shallow embedding of
`src/utils/buffer.py` (RingBuffer), `src/audio/capture.py` (AudioCapturer)
and `src/ai/stt_engine.py` (HybridSTTEngine), with theorems settling the
specification claims about them.

Conventions of the embedding:
* Python `bytes` become `List Nat` (each element a byte value).
* Python `int` arithmetic `(head - tail) % size` is modelled with `Int`
  arithmetic and `Int.emod`, matching Python's nonnegative remainder for a
  positive modulus.
* `time.time()` values and `psutil` percentages become `Rat`, supplied
  through an explicit per-call environment (`CallEnv`).
* A Python exception becomes an explicit `Option String` / `Except String`
  outcome carried next to the post-call object state; a method that raises
  before mutating returns the unchanged state next to the error.
-/

namespace SmartLog

/-- State of `RingBuffer` from `src/utils/buffer.py`: a fixed byte store
(`mmap` of `size` zero-initialised bytes), a write cursor `head`, a read
cursor `tail`, and the overwrite counter. -/
structure RingBuffer where
  size : Nat
  buf : List Nat
  head : Nat
  tail : Nat
  overwrites : Nat
deriving Repr, DecidableEq

/-- `RingBuffer.__init__`: `mmap.mmap(-1, size)` is zero-filled; cursors and
the overwrite counter start at 0. -/
def RingBuffer.init (size : Nat) : RingBuffer :=
  { size := size, buf := List.replicate size 0, head := 0, tail := 0, overwrites := 0 }

/-- One iteration of the `for byte in data` loop inside `RingBuffer.write`:
when `next_head == self.tail` the buffer was full, so `tail` advances (the
oldest byte is dropped) and the overwrite counter increments; then the byte
is stored at `head` and `head` advances. -/
def RingBuffer.writeByte (s : RingBuffer) (b : Nat) : RingBuffer :=
  if (s.head + 1) % s.size = s.tail then
    { s with buf := s.buf.set s.head b, head := (s.head + 1) % s.size,
             tail := (s.tail + 1) % s.size, overwrites := s.overwrites + 1 }
  else
    { s with buf := s.buf.set s.head b, head := (s.head + 1) % s.size }

/-- The byte loop of `RingBuffer.write` over a whole payload. -/
def RingBuffer.writeAll (s : RingBuffer) (data : List Nat) : RingBuffer :=
  data.foldl RingBuffer.writeByte s

/-- `RingBuffer.write`: raises `ValueError("Data too large for buffer.")`
when `len(data) > self.size` (before any mutation), otherwise runs the byte
loop.  The returned pair is (object state after the call, raised error). -/
def RingBuffer.write (s : RingBuffer) (data : List Nat) : RingBuffer × Option String :=
  if data.length > s.size then (s, some "Data too large for buffer.")
  else (s.writeAll data, none)

/-- `available = (self.head - self.tail) % self.size` with Python integer
semantics (`Int.emod` is nonnegative for a positive modulus). -/
def RingBuffer.avail (s : RingBuffer) : Nat :=
  (((s.head : Int) - (s.tail : Int)) % (s.size : Int)).toNat

/-- One iteration of the read loop: `data.append(self.buf[self.tail]);
self.tail = (self.tail + 1) % self.size`. -/
def RingBuffer.readByte (s : RingBuffer) : Nat × RingBuffer :=
  (s.buf.getD s.tail 0, { s with tail := (s.tail + 1) % s.size })

/-- The read loop of `RingBuffer.read`, `n` iterations. -/
def RingBuffer.readAux : Nat → RingBuffer → List Nat × RingBuffer
  | 0, s => ([], s)
  | n + 1, s =>
      let p := s.readByte
      let q := RingBuffer.readAux n p.2
      (p.1 :: q.1, q.2)

/-- `RingBuffer.read`: if more than `available` is requested, the available
bytes are drained and the remainder of the requested length is padded with
zero bytes; otherwise exactly `length` bytes are drained. -/
def RingBuffer.read (s : RingBuffer) (length : Nat) : List Nat × RingBuffer :=
  if length > s.avail then
    ((RingBuffer.readAux s.avail s).1 ++ List.replicate (length - s.avail) 0,
     (RingBuffer.readAux s.avail s).2)
  else
    RingBuffer.readAux length s

/-- Well-formedness maintained by every `RingBuffer` operation: positive
size, cursors inside the store, store of the declared size. -/
def RingBuffer.wf (s : RingBuffer) : Prop :=
  0 < s.size ∧ s.head < s.size ∧ s.tail < s.size ∧ s.buf.length = s.size

instance (s : RingBuffer) : Decidable s.wf := by
  unfold RingBuffer.wf; infer_instance

/-- Specification view of a state: the unread bytes, oldest first, read off
the store without mutating it. -/
def RingBuffer.unread (s : RingBuffer) : List Nat :=
  (List.range s.avail).map (fun i => s.buf.getD ((s.tail + i) % s.size) 0)

/-- The last `n` elements of a list. -/
def lastN (n : Nat) (l : List Nat) : List Nat :=
  l.drop (l.length - n)

/-- Operations a client can perform on a `RingBuffer`. -/
inductive BufOp where
  | write (data : List Nat)
  | read (len : Nat)
deriving Repr, DecidableEq

/-- Post-call state of one operation (a raised oversize error leaves the
state unchanged, as in the source the check precedes the loop). -/
def RingBuffer.applyOp (s : RingBuffer) : BufOp → RingBuffer
  | .write data => (s.write data).1
  | .read len => (s.read len).2

/-- Run a sequence of buffer operations. -/
def RingBuffer.runOps (s : RingBuffer) : List BufOp → RingBuffer
  | [] => s
  | op :: ops => (s.applyOp op).runOps ops

/-! ### Arithmetic and list helpers -/

theorem mod_two_cases (x N : Nat) (h : x < 2 * N) :
    x % N = if x < N then x else x - N := by
  by_cases hx : x < N
  · simp [hx, Nat.mod_eq_of_lt hx]
  · have h1 : N ≤ x := le_of_not_lt hx
    rw [if_neg hx, Nat.mod_eq_sub_mod h1, Nat.mod_eq_of_lt (by omega)]

theorem getD_set_self (l : List Nat) (i : Nat) (hi : i < l.length) (b : Nat) :
    (l.set i b).getD i 0 = b := by
  rw [List.getD_eq_getElem?_getD, List.getElem?_set_self (by simpa using hi)]
  rfl

theorem getD_set_other (l : List Nat) (i j : Nat) (hij : i ≠ j) (b : Nat) :
    (l.set i b).getD j 0 = l.getD j 0 := by
  rw [List.getD_eq_getElem?_getD, List.getElem?_set_ne hij,
    ← List.getD_eq_getElem?_getD]

/-! ### Basic `RingBuffer` facts -/

theorem RingBuffer.avail_eq (s : RingBuffer) (hw : s.wf) :
    s.avail = (s.head + s.size - s.tail) % s.size := by
  obtain ⟨hN, hh, ht, hb⟩ := hw
  unfold RingBuffer.avail
  have h1 : (s.head : Int) - (s.tail : Int) =
      ((s.head + s.size - s.tail : Nat) : Int) - ((s.size : Nat) : Int) := by
    have h2 : s.tail ≤ s.head + s.size := by omega
    push_cast [h2]
    ring
  rw [h1]
  rw [show (((s.head + s.size - s.tail : Nat) : Int) - ((s.size : Nat) : Int)) %
      ((s.size : Nat) : Int) = ((s.head + s.size - s.tail : Nat) : Int) %
      ((s.size : Nat) : Int) by simp [Int.sub_emod]]
  rw [← Int.natCast_mod, Int.toNat_natCast]

theorem RingBuffer.avail_lt (s : RingBuffer) (hw : s.wf) : s.avail < s.size := by
  rw [s.avail_eq hw]
  exact Nat.mod_lt _ hw.1

theorem RingBuffer.unread_length (s : RingBuffer) : s.unread.length = s.avail := by
  simp [RingBuffer.unread]

theorem RingBuffer.init_wf (N : Nat) (hN : 0 < N) : (RingBuffer.init N).wf := by
  refine ⟨hN, hN, hN, ?_⟩
  simp [RingBuffer.init]

theorem RingBuffer.avail_init (N : Nat) : (RingBuffer.init N).avail = 0 := by
  simp [RingBuffer.init, RingBuffer.avail]

theorem RingBuffer.unread_init (N : Nat) : (RingBuffer.init N).unread = [] := by
  simp [RingBuffer.unread, RingBuffer.avail_init]

/-! ### The read loop -/

theorem RingBuffer.readAux_spec (n : Nat) :
    ∀ s : RingBuffer, s.tail < s.size →
      (RingBuffer.readAux n s).1 =
        (List.range n).map (fun i => s.buf.getD ((s.tail + i) % s.size) 0) ∧
      (RingBuffer.readAux n s).2 = { s with tail := (s.tail + n) % s.size } := by
  induction n with
  | zero =>
    intro s ht
    simp [RingBuffer.readAux, Nat.mod_eq_of_lt ht]
  | succ n ih =>
    intro s ht
    have hN : 0 < s.size := by omega
    have ht' : (s.tail + 1) % s.size < s.size := Nat.mod_lt _ hN
    obtain ⟨ih1, ih2⟩ := ih { s with tail := (s.tail + 1) % s.size } ht'
    constructor
    · show s.buf.getD s.tail 0 ::
        (RingBuffer.readAux n { s with tail := (s.tail + 1) % s.size }).1 = _
      rw [ih1, List.range_succ_eq_map, List.map_cons, List.map_map]
      have e0 : s.buf.getD ((s.tail + 0) % s.size) 0 = s.buf.getD s.tail 0 := by
        rw [Nat.add_zero, Nat.mod_eq_of_lt ht]
      rw [e0]
      congr 1
      apply List.map_congr_left
      intro i _
      simp only [Function.comp_apply]
      rw [Nat.mod_add_mod]
      have e1 : s.tail + 1 + i = s.tail + Nat.succ i := by omega
      rw [e1]
    · show (RingBuffer.readAux n { s with tail := (s.tail + 1) % s.size }).2 = _
      rw [ih2]
      simp only [RingBuffer.mk.injEq, true_and, and_true]
      rw [Nat.mod_add_mod]
      congr 1
      omega

theorem RingBuffer.read_le (s : RingBuffer) (len : Nat) (hw : s.wf)
    (h : len ≤ s.avail) : (s.read len).1 = s.unread.take len := by
  unfold RingBuffer.read
  rw [if_neg (by omega)]
  obtain ⟨h1, _⟩ := RingBuffer.readAux_spec len s hw.2.2.1
  rw [h1, RingBuffer.unread, ← List.map_take, List.take_range]
  congr 2
  omega

theorem RingBuffer.read_gt (s : RingBuffer) (len : Nat) (hw : s.wf)
    (h : s.avail < len) :
    (s.read len).1 = s.unread ++ List.replicate (len - s.avail) 0 := by
  unfold RingBuffer.read
  rw [if_pos (by omega)]
  obtain ⟨h1, _⟩ := RingBuffer.readAux_spec s.avail s hw.2.2.1
  rw [h1, RingBuffer.unread]

theorem RingBuffer.read_wf (s : RingBuffer) (len : Nat) (hw : s.wf) :
    (s.read len).2.wf := by
  obtain ⟨ht1, ht2⟩ := RingBuffer.readAux_spec len s hw.2.2.1
  obtain ⟨ha1, ha2⟩ := RingBuffer.readAux_spec s.avail s hw.2.2.1
  unfold RingBuffer.read
  obtain ⟨hN, hh, ht, hb⟩ := hw
  split_ifs
  · rw [ha2]
    exact ⟨hN, hh, Nat.mod_lt _ hN, hb⟩
  · rw [ht2]
    exact ⟨hN, hh, Nat.mod_lt _ hN, hb⟩

theorem RingBuffer.read_overwrites (s : RingBuffer) (len : Nat) (hw : s.wf) :
    (s.read len).2.overwrites = s.overwrites := by
  obtain ⟨ht1, ht2⟩ := RingBuffer.readAux_spec len s hw.2.2.1
  obtain ⟨ha1, ha2⟩ := RingBuffer.readAux_spec s.avail s hw.2.2.1
  unfold RingBuffer.read
  split_ifs
  · rw [ha2]
  · rw [ht2]

/-! ### The write loop: position facts and the one-byte step -/

theorem RingBuffer.pos_ne_head (s : RingBuffer) (hw : s.wf) (i : Nat)
    (hi : i < s.avail) : (s.tail + i) % s.size ≠ s.head := by
  have ha := s.avail_eq hw
  have hal := s.avail_lt hw
  obtain ⟨hN, hh, ht, hb⟩ := hw
  rw [mod_two_cases _ _ (by omega)]
  rw [ha, mod_two_cases _ _ (by omega)] at hi
  intro he
  split_ifs at hi he <;> omega

theorem RingBuffer.pos_avail_eq_head (s : RingBuffer) (hw : s.wf) :
    (s.tail + s.avail) % s.size = s.head := by
  have ha := s.avail_eq hw
  obtain ⟨hN, hh, ht, hb⟩ := hw
  rw [ha, mod_two_cases (s.head + s.size - s.tail) s.size (by omega)]
  split_ifs with hc
  · have e : s.tail + (s.head + s.size - s.tail) = s.head + s.size := by omega
    rw [e, Nat.add_mod_right, Nat.mod_eq_of_lt hh]
  · have e : s.tail + (s.head + s.size - s.tail - s.size) = s.head := by omega
    rw [e, Nat.mod_eq_of_lt hh]

theorem RingBuffer.full_iff (s : RingBuffer) (hw : s.wf) :
    ((s.head + 1) % s.size = s.tail) ↔ s.avail = s.size - 1 := by
  have ha := s.avail_eq hw
  obtain ⟨hN, hh, ht, hb⟩ := hw
  rw [ha, mod_two_cases (s.head + 1) _ (by omega),
    mod_two_cases (s.head + s.size - s.tail) _ (by omega)]
  split_ifs <;> omega

theorem RingBuffer.writeByte_wf (s : RingBuffer) (b : Nat) (hw : s.wf) :
    (s.writeByte b).wf := by
  obtain ⟨hN, hh, ht, hb⟩ := hw
  unfold RingBuffer.writeByte
  split_ifs
  · exact ⟨hN, Nat.mod_lt _ hN, Nat.mod_lt _ hN, by simpa using hb⟩
  · exact ⟨hN, Nat.mod_lt _ hN, ht, by simpa using hb⟩

theorem RingBuffer.writeByte_size (s : RingBuffer) (b : Nat) :
    (s.writeByte b).size = s.size := by
  unfold RingBuffer.writeByte
  split_ifs <;> rfl

theorem RingBuffer.writeByte_overwrites (s : RingBuffer) (b : Nat) :
    s.overwrites ≤ (s.writeByte b).overwrites := by
  unfold RingBuffer.writeByte
  split_ifs
  · exact Nat.le_succ _
  · exact Nat.le_refl _

theorem RingBuffer.writeByte_full_lit (s : RingBuffer) (b : Nat)
    (hg : (s.head + 1) % s.size = s.tail) :
    s.writeByte b = { s with buf := s.buf.set s.head b,
                             head := (s.head + 1) % s.size,
                             tail := (s.tail + 1) % s.size,
                             overwrites := s.overwrites + 1 } := by
  unfold RingBuffer.writeByte
  rw [if_pos hg]

theorem RingBuffer.writeByte_not_full_lit (s : RingBuffer) (b : Nat)
    (hg : ¬ (s.head + 1) % s.size = s.tail) :
    s.writeByte b = { s with buf := s.buf.set s.head b,
                             head := (s.head + 1) % s.size } := by
  unfold RingBuffer.writeByte
  rw [if_neg hg]

theorem RingBuffer.avail_writeByte (s : RingBuffer) (b : Nat) (hw : s.wf) :
    (s.writeByte b).avail =
      if s.avail = s.size - 1 then s.size - 1 else s.avail + 1 := by
  have ha := s.avail_eq hw
  have hal := s.avail_lt hw
  have hful := s.full_iff hw
  have ha' := (s.writeByte b).avail_eq (s.writeByte_wf b hw)
  rw [ha']
  obtain ⟨hN, hh, ht, hb⟩ := hw
  by_cases hg : (s.head + 1) % s.size = s.tail
  · rw [if_pos (hful.mp hg), RingBuffer.writeByte_full_lit s b hg]
    dsimp only
    rw [hg, mod_two_cases (s.tail + 1) s.size (by omega)]
    by_cases hc : s.tail + 1 < s.size
    · rw [if_pos hc]
      have e : s.tail + s.size - (s.tail + 1) = s.size - 1 := by omega
      rw [e, Nat.mod_eq_of_lt (by omega)]
    · rw [if_neg hc]
      have e : s.tail + 1 - s.size = 0 := by omega
      rw [e, Nat.sub_zero, Nat.add_mod_right, Nat.mod_eq_of_lt ht]
      omega
  · rw [if_neg (fun hcon => hg (hful.mpr hcon)),
      RingBuffer.writeByte_not_full_lit s b hg]
    dsimp only
    have e1 : (s.head + 1) % s.size + s.size - s.tail
        = (s.head + 1) % s.size + (s.size - s.tail) := by omega
    rw [e1, Nat.mod_add_mod]
    have hg2 : ¬(s.head + 1 = s.size ∧ s.tail = 0) := by
      rintro ⟨e2, e3⟩
      exact hg (by rw [e2, e3, Nat.mod_self])
    have hnf : (s.head + s.size - s.tail) % s.size ≠ s.size - 1 := by
      rw [← ha]
      exact fun hcon => hg (hful.mpr hcon)
    rw [mod_two_cases (s.head + 1 + (s.size - s.tail)) s.size (by omega),
      ha, mod_two_cases (s.head + s.size - s.tail) s.size (by omega)]
    rw [mod_two_cases (s.head + s.size - s.tail) s.size (by omega)] at hnf
    split_ifs at hnf ⊢ <;> omega

theorem RingBuffer.unread_getElem (s : RingBuffer) (i : Nat)
    (hi : i < s.unread.length) :
    s.unread[i] = s.buf.getD ((s.tail + i) % s.size) 0 := by
  simp only [RingBuffer.unread, List.getElem_map, List.getElem_range]

theorem RingBuffer.unread_writeByte_not_full (s : RingBuffer) (b : Nat)
    (hw : s.wf) (h : s.avail ≠ s.size - 1) :
    (s.writeByte b).unread = s.unread ++ [b] := by
  have hg : ¬ (s.head + 1) % s.size = s.tail :=
    fun hcon => h ((s.full_iff hw).mp hcon)
  have hav : (s.writeByte b).avail = s.avail + 1 := by
    rw [s.avail_writeByte b hw, if_neg h]
  rw [RingBuffer.unread, RingBuffer.unread, hav,
    s.writeByte_not_full_lit b hg]
  dsimp only
  rw [List.range_succ, List.map_append]
  congr 1
  · apply List.map_congr_left
    intro i hi
    rw [List.mem_range] at hi
    exact getD_set_other s.buf s.head ((s.tail + i) % s.size)
      ((s.pos_ne_head hw i hi).symm) b
  · simp only [List.map_cons, List.map_nil]
    rw [s.pos_avail_eq_head hw,
      getD_set_self s.buf s.head (by rw [hw.2.2.2]; exact hw.2.1) b]

theorem RingBuffer.unread_writeByte_full (s : RingBuffer) (b : Nat)
    (hw : s.wf) (h : s.avail = s.size - 1) :
    (s.writeByte b).unread = (s.unread ++ [b]).drop 1 := by
  have hg : (s.head + 1) % s.size = s.tail := (s.full_iff hw).mpr h
  have hav : (s.writeByte b).avail = s.size - 1 := by
    rw [s.avail_writeByte b hw, if_pos h]
  have hlen : s.unread.length = s.size - 1 := by rw [s.unread_length, h]
  have hN : 0 < s.size := hw.1
  apply List.ext_getElem
  · rw [RingBuffer.unread_length, hav, List.length_drop, List.length_append,
      hlen]
    simp
  · intro i h1 h2
    have hi' : i < s.size - 1 := by
      rw [RingBuffer.unread_length, hav] at h1
      exact h1
    rw [(s.writeByte b).unread_getElem i h1, s.writeByte_full_lit b hg]
    dsimp only
    rw [Nat.mod_add_mod, List.getElem_drop, List.getElem_append]
    by_cases hcase : 1 + i < s.unread.length
    · rw [dif_pos hcase, s.unread_getElem (1 + i) hcase]
      have e : s.tail + 1 + i = s.tail + (1 + i) := by omega
      rw [e]
      exact getD_set_other s.buf s.head ((s.tail + (1 + i)) % s.size)
        ((s.pos_ne_head hw (1 + i) (by rw [← s.unread_length]; exact hcase)).symm) b
    · rw [dif_neg hcase]
      have e2 : 1 + i = s.size - 1 := by omega
      have e3 : s.tail + 1 + i = s.tail + s.avail := by omega
      rw [e3, s.pos_avail_eq_head hw,
        getD_set_self s.buf s.head (by rw [hw.2.2.2]; exact hw.2.1) b]
      have e4 : 1 + i - s.unread.length = 0 := by omega
      simp only [e4, List.getElem_cons_zero]

/-! ### The write loop over a whole stream -/

theorem RingBuffer.writeAll_wf (xs : List Nat) :
    ∀ s : RingBuffer, s.wf → (s.writeAll xs).wf := by
  induction xs with
  | nil => exact fun s hw => hw
  | cons x xs ih => exact fun s hw => ih _ (s.writeByte_wf x hw)

theorem RingBuffer.writeAll_size (xs : List Nat) :
    ∀ s : RingBuffer, (s.writeAll xs).size = s.size := by
  induction xs with
  | nil => exact fun s => rfl
  | cons x xs ih =>
    intro s
    rw [show s.writeAll (x :: xs) = (s.writeByte x).writeAll xs from rfl,
      ih, s.writeByte_size x]

theorem RingBuffer.writeAll_overwrites (xs : List Nat) :
    ∀ s : RingBuffer, s.overwrites ≤ (s.writeAll xs).overwrites := by
  induction xs with
  | nil => exact fun s => Nat.le_refl _
  | cons x xs ih =>
    exact fun s => Nat.le_trans (s.writeByte_overwrites x) (ih _)

theorem lastN_drop_front (n k : Nat) (l r : List Nat) (h : n + k ≤ l.length) :
    lastN n (l.drop k ++ r) = lastN n (l ++ r) := by
  unfold lastN
  rw [List.length_append, List.length_append, List.length_drop]
  by_cases hc : r.length ≤ n
  · rw [List.drop_append_of_le_length (by rw [List.length_drop]; omega),
      List.drop_append_of_le_length (by omega), List.drop_drop]
    congr 2
    omega
  · have e1 : l.length - k + r.length - n = (l.length - k) + (r.length - n) := by
      omega
    have e2 : l.length + r.length - n = l.length + (r.length - n) := by omega
    rw [e1, e2, ← List.drop_drop, ← List.drop_drop, List.drop_left]
    have e3 : (l.drop k).length = l.length - k := List.length_drop k l
    rw [← e3, List.drop_left]

theorem RingBuffer.writeAll_unread (xs : List Nat) :
    ∀ s : RingBuffer, s.wf →
      (s.writeAll xs).unread = lastN (s.size - 1) (s.unread ++ xs) := by
  induction xs with
  | nil =>
    intro s hw
    have hle := s.avail_lt hw
    rw [List.append_nil]
    unfold lastN
    have e : s.unread.length - (s.size - 1) = 0 := by
      rw [s.unread_length]
      omega
    rw [e, List.drop_zero]
    rfl
  | cons x xs ih =>
    intro s hw
    have hstep : s.writeAll (x :: xs) = (s.writeByte x).writeAll xs := rfl
    have hsz := s.writeByte_size x
    rw [hstep, ih _ (s.writeByte_wf x hw), hsz]
    by_cases hc : s.avail = s.size - 1
    · rw [s.unread_writeByte_full x hw hc]
      have hlen : (s.unread ++ [x]).length = s.size - 1 + 1 := by
        rw [List.length_append, s.unread_length, hc]
        rfl
      rw [lastN_drop_front (s.size - 1) 1 (s.unread ++ [x]) xs (by omega)]
      congr 1
      rw [List.append_assoc]
      rfl
    · rw [s.unread_writeByte_not_full x hw hc]
      congr 1
      rw [List.append_assoc]
      rfl

theorem RingBuffer.init_writeAll_unread (N : Nat) (hN : 0 < N) (xs : List Nat) :
    ((RingBuffer.init N).writeAll xs).unread = lastN (N - 1) xs := by
  rw [RingBuffer.writeAll_unread xs _ (RingBuffer.init_wf N hN),
    RingBuffer.unread_init]
  rfl

theorem RingBuffer.applyOp_spec (s : RingBuffer) (op : BufOp) (hw : s.wf) :
    s.overwrites ≤ (s.applyOp op).overwrites ∧ (s.applyOp op).wf := by
  cases op with
  | write data =>
    unfold RingBuffer.applyOp RingBuffer.write
    dsimp only
    split_ifs
    · exact ⟨Nat.le_refl _, hw⟩
    · exact ⟨RingBuffer.writeAll_overwrites data s,
        RingBuffer.writeAll_wf data s hw⟩
  | read len =>
    unfold RingBuffer.applyOp
    exact ⟨Nat.le_of_eq (s.read_overwrites len hw).symm, s.read_wf len hw⟩

theorem RingBuffer.runOps_overwrites (ops : List BufOp) :
    ∀ s : RingBuffer, s.wf → s.overwrites ≤ (s.runOps ops).overwrites := by
  induction ops with
  | nil => exact fun s _ => Nat.le_refl _
  | cons op ops ih =>
    intro s hw
    obtain ⟨h1, h2⟩ := s.applyOp_spec op hw
    exact Nat.le_trans h1 (ih _ h2)

theorem RingBuffer.runOps_writes (chunks : List (List Nat)) :
    ∀ s : RingBuffer, (∀ c ∈ chunks, c.length ≤ s.size) →
      s.runOps (chunks.map BufOp.write) = s.writeAll chunks.flatten := by
  induction chunks with
  | nil => exact fun s _ => rfl
  | cons c cs ih =>
    intro s hc
    have h1 : s.applyOp (BufOp.write c) = s.writeAll c := by
      unfold RingBuffer.applyOp RingBuffer.write
      dsimp only
      rw [if_neg (Nat.not_lt.mpr (hc c (List.mem_cons_self c cs)))]
    have h2 : s.runOps ((c :: cs).map BufOp.write) =
        (s.applyOp (BufOp.write c)).runOps (cs.map BufOp.write) := rfl
    rw [h2, h1, ih _ (fun d hd => by
      rw [RingBuffer.writeAll_size]
      exact hc d (List.mem_cons_of_mem c hd))]
    show ((s.writeAll c).writeAll cs.flatten) = s.writeAll (c ++ cs.flatten)
    unfold RingBuffer.writeAll
    rw [List.foldl_append]

/-! ### AudioCapturer, from `src/audio/capture.py` -/

/-- `AudioCapturer` state: configuration plus the owned `RingBuffer`.  The
pyaudio handle, stream and capture thread are external resources not needed
by the claims about `get_chunk`. -/
structure AudioCapturer where
  rate : Nat
  chunk : Nat
  channels : Nat
  buffer : RingBuffer
deriving Repr, DecidableEq

/-- `AudioCapturer.__init__`: `buffer_size = buffer_duration * rate` and
`buffer = RingBuffer(buffer_size)`. -/
def AudioCapturer.init (rate chunk channels buffer_duration : Nat) :
    AudioCapturer :=
  { rate := rate, chunk := chunk, channels := channels,
    buffer := RingBuffer.init (buffer_duration * rate) }

/-- `AudioCapturer.get_chunk`: `data = self.buffer.read(self.chunk)`.  The
surrounding `try/except` can only fire if `read` itself raises, which cannot
happen for a well-formed buffer, so the model is the plain read. -/
def AudioCapturer.get_chunk (c : AudioCapturer) : List Nat × AudioCapturer :=
  ((c.buffer.read c.chunk).1, { c with buffer := (c.buffer.read c.chunk).2 })

/-! ### HybridSTTEngine, from `src/ai/stt_engine.py`

The engine is modelled in the configuration where `whisper_cpp` is not
importable (the module then defines mock classes and never uses them, so
`_load_whisper` is exactly the original-Whisper path: a no-op when
`self.whisper_model` is already set, otherwise a load that re-raises on
failure).  External effects — `time.time()`, `psutil` readings and the
success of the two model loads — are supplied through a per-call
environment `CallEnv`; the outcomes of the recognizer calls inside
`transcribe` are supplied through `BackendCalls`. -/

/-- Mutable state of `HybridSTTEngine`: the active engine name, the
resource-management settings, the check/switch bookkeeping, and whether
each backend object is currently loaded (`vosk_recognizer` /
`whisper_model` being non-`None`). -/
structure EngineState where
  active_engine : String
  cpu_threshold : Rat
  memory_threshold : Rat
  check_interval : Rat
  cooldown_time : Rat
  last_check_time : Rat
  last_switch_time : Rat
  resource_check_counter : Nat
  vosk_loaded : Bool
  whisper_loaded : Bool
deriving Repr, DecidableEq

/-- External inputs consumed during one call into the engine:
`now_check` is the `time.time()` sampled inside `_should_check_resources`,
`now` the one sampled inside `_check_resources_and_switch`; `cpu` and
`memory` are the `psutil` readings; the two flags say whether a model load
attempted during this call would succeed. -/
structure CallEnv where
  now_check : Rat
  now : Rat
  cpu : Rat
  memory : Rat
  vosk_load_ok : Bool
  whisper_load_ok : Bool
deriving Repr, DecidableEq

/-- `_should_check_resources`: the counter is incremented first and the
branches test the incremented value; after ten calls and once
`check_interval` has passed since `last_check_time`, the check fires and
resets both. -/
def should_check_resources (s : EngineState) (now_check : Rat) :
    Bool × EngineState :=
  if s.resource_check_counter + 1 < 10 then
    (false, { s with resource_check_counter := s.resource_check_counter + 1 })
  else if now_check - s.last_check_time < s.check_interval then
    (false, { s with resource_check_counter := s.resource_check_counter + 1 })
  else
    (true, { s with resource_check_counter := 0, last_check_time := now_check })

/-- `_load_vosk`: always attempts the load (even when already loaded) and
re-raises on failure — on failure `vosk_recognizer` stays as it was. -/
def load_vosk (s : EngineState) (ok : Bool) : EngineState × Option String :=
  if ok then ({ s with vosk_loaded := true }, none)
  else (s, some "Failed to load Vosk model")

/-- `_load_whisper` (original-Whisper path): a no-op when
`self.whisper_model` is already set, otherwise loads and re-raises on
failure. -/
def load_whisper (s : EngineState) (ok : Bool) : EngineState × Option String :=
  if s.whisper_loaded then (s, none)
  else if ok then ({ s with whisper_loaded := true }, none)
  else (s, some "Failed to load Whisper model")

/-- `_unload_whisper`: drops the model references. -/
def unload_whisper (s : EngineState) : EngineState :=
  { s with whisper_loaded := false }

/-- The body of `_check_resources_and_switch` after the
`_should_check_resources` gate has returned `True`; `s` is the state the
gate left behind.  Mirrors the source line by line: the cooldown early
return; the `whisper`-and-high-usage branch which sets
`active_engine = "vosk"`, runs `_load_vosk` (whose exception aborts the
rest), then `_unload_whisper` and the switch stamp; the `vosk`-and-low-usage
branch (hysteresis of 15 points) which sets `active_engine = "whisper"`,
runs `_load_whisper` (whose exception aborts the stamp), then stamps. -/
def switch_decision (s : EngineState) (e : CallEnv) :
    EngineState × Option String :=
  if e.now - s.last_switch_time < s.cooldown_time then (s, none)
  else if s.active_engine = "whisper" ∧
      (s.cpu_threshold < e.cpu ∨ s.memory_threshold < e.memory) then
    match load_vosk { s with active_engine := "vosk" } e.vosk_load_ok with
    | (s1, some err) => (s1, some err)
    | (s1, none) => ({ unload_whisper s1 with last_switch_time := e.now }, none)
  else if s.active_engine = "vosk" ∧
      e.cpu < s.cpu_threshold - 15 ∧ e.memory < s.memory_threshold - 15 then
    match load_whisper { s with active_engine := "whisper" } e.whisper_load_ok with
    | (s1, some err) => (s1, some err)
    | (s1, none) => ({ s1 with last_switch_time := e.now }, none)
  else (s, none)

/-- `_check_resources_and_switch`: the throttle gate, then the decision
body.  The second component is the exception propagating out of the call,
if any. -/
def check_resources_and_switch (s : EngineState) (e : CallEnv) :
    EngineState × Option String :=
  if (should_check_resources s e.now_check).1 then
    switch_decision (should_check_resources s e.now_check).2 e
  else ((should_check_resources s e.now_check).2, none)

deriving instance DecidableEq for Except

/-- Outcomes of the recognizer-level calls made inside `transcribe`:
`accept_waveform` is `AcceptWaveform(chunk)`, `vosk_text` the
`Result()`-plus-JSON path, `vosk_interim` the `PartialResult()`-plus-JSON
path, `whisper_text` the Whisper `transcribe` call. -/
structure BackendCalls where
  accept_waveform : Except String Bool
  vosk_text : Except String String
  vosk_interim : Except String String
  whisper_text : Except String String
deriving Repr, DecidableEq

/-- The recognizer calls of the vosk arm: `AcceptWaveform`, then `Result`
or `PartialResult`. -/
def vosk_calls (s : EngineState) (io : BackendCalls) :
    Except String String × EngineState :=
  match io.accept_waveform with
  | .error err => (.error err, s)
  | .ok true => (io.vosk_text, s)
  | .ok false => (io.vosk_interim, s)

/-- The `try` body of the vosk arm of `transcribe`: load the recognizer if
it is missing (a failure raises into the arm\'s `except`), then run the
recognizer calls. -/
def vosk_branch (s : EngineState) (e : CallEnv) (io : BackendCalls) :
    Except String String × EngineState :=
  if s.vosk_loaded then vosk_calls s io
  else
    match load_vosk s e.vosk_load_ok with
    | (s1, some err) => (.error err, s1)
    | (s1, none) => vosk_calls s1 io

/-- The `try` body of the whisper arm of `transcribe`: `_load_whisper()`,
then the model call when a model is present, else the logged
empty-string fallback. -/
def whisper_branch (s : EngineState) (e : CallEnv) (io : BackendCalls) :
    Except String String × EngineState :=
  match load_whisper s e.whisper_load_ok with
  | (s1, some err) => (.error err, s1)
  | (s1, none) =>
    if s1.whisper_loaded then (io.whisper_text, s1)
    else (.ok "", s1)

/-- `transcribe`: the switch check runs outside any `try`, so an exception
it raises propagates to the caller; each backend arm catches its own
exceptions and returns the empty string for that chunk. -/
def transcribe (s : EngineState) (e : CallEnv) (io : BackendCalls) :
    Except String String × EngineState :=
  match check_resources_and_switch s e with
  | (s1, some err) => (.error err, s1)
  | (s1, none) =>
    if s1.active_engine = "vosk" then
      match vosk_branch s1 e io with
      | (.error _, s2) => (.ok "", s2)
      | (.ok t, s2) => (.ok t, s2)
    else if s1.active_engine = "whisper" then
      match whisper_branch s1 e io with
      | (.error _, s2) => (.ok "", s2)
      | (.ok t, s2) => (.ok t, s2)
    else (.ok "", s1)

/-- Run the switch-decision routine over a trace of call environments. -/
def runCheck : EngineState → List CallEnv → EngineState
  | s, [] => s
  | s, e :: es => runCheck (check_resources_and_switch s e).1 es

/-- The switch timestamps recorded along a trace: the values taken by
`last_switch_time` at the calls that change it. -/
def switchTimes : EngineState → List CallEnv → List Rat
  | _, [] => []
  | s, e :: es =>
    if (check_resources_and_switch s e).1.last_switch_time =
        s.last_switch_time then
      switchTimes (check_resources_and_switch s e).1 es
    else
      (check_resources_and_switch s e).1.last_switch_time ::
        switchTimes (check_resources_and_switch s e).1 es

/-! ### Engine lemmas -/

theorem should_check_fields (s : EngineState) (t : Rat) :
    (should_check_resources s t).2.active_engine = s.active_engine ∧
    (should_check_resources s t).2.last_switch_time = s.last_switch_time ∧
    (should_check_resources s t).2.cooldown_time = s.cooldown_time ∧
    (should_check_resources s t).2.cpu_threshold = s.cpu_threshold ∧
    (should_check_resources s t).2.memory_threshold = s.memory_threshold ∧
    (should_check_resources s t).2.vosk_loaded = s.vosk_loaded ∧
    (should_check_resources s t).2.whisper_loaded = s.whisper_loaded := by
  unfold should_check_resources
  split_ifs <;> exact ⟨rfl, rfl, rfl, rfl, rfl, rfl, rfl⟩

theorem switch_decision_stamp (s : EngineState) (e : CallEnv) :
    ((switch_decision s e).1.last_switch_time = s.last_switch_time ∨
      ((switch_decision s e).1.last_switch_time = e.now ∧
        s.cooldown_time ≤ e.now - s.last_switch_time)) ∧
    (switch_decision s e).1.cooldown_time = s.cooldown_time := by
  unfold switch_decision load_vosk load_whisper unload_whisper
  by_cases h1 : e.now - s.last_switch_time < s.cooldown_time
  · rw [if_pos h1]
    exact ⟨Or.inl rfl, rfl⟩
  · have hcool := not_lt.mp h1
    rw [if_neg h1]
    split_ifs <;>
      first
        | exact ⟨Or.inl rfl, rfl⟩
        | exact ⟨Or.inr ⟨rfl, hcool⟩, rfl⟩

theorem check_stamp (s : EngineState) (e : CallEnv) :
    ((check_resources_and_switch s e).1.last_switch_time = s.last_switch_time ∨
      ((check_resources_and_switch s e).1.last_switch_time = e.now ∧
        s.cooldown_time ≤ e.now - s.last_switch_time)) ∧
    (check_resources_and_switch s e).1.cooldown_time = s.cooldown_time := by
  unfold check_resources_and_switch
  by_cases hg : (should_check_resources s e.now_check).1
  · rw [if_pos hg]
    obtain ⟨-, h2, h3, -⟩ := should_check_fields s e.now_check
    have hs := switch_decision_stamp (should_check_resources s e.now_check).2 e
    rw [h2, h3] at hs
    exact hs
  · rw [if_neg hg]
    exact ⟨Or.inl (should_check_fields s e.now_check).2.1,
      (should_check_fields s e.now_check).2.2.1⟩

theorem switchTimes_cons_eq (s : EngineState) (e : CallEnv) (es : List CallEnv)
    (h : (check_resources_and_switch s e).1.last_switch_time =
      s.last_switch_time) :
    switchTimes s (e :: es) =
      switchTimes (check_resources_and_switch s e).1 es := by
  simp only [switchTimes]
  rw [if_pos h]

theorem switchTimes_cons_ne (s : EngineState) (e : CallEnv) (es : List CallEnv)
    (h : ¬ (check_resources_and_switch s e).1.last_switch_time =
      s.last_switch_time) :
    switchTimes s (e :: es) =
      (check_resources_and_switch s e).1.last_switch_time ::
        switchTimes (check_resources_and_switch s e).1 es := by
  simp only [switchTimes]
  rw [if_neg h]

theorem switchTimes_spec (es : List CallEnv) :
    ∀ s : EngineState, 0 ≤ s.cooldown_time →
      (∀ x ∈ switchTimes s es,
        s.last_switch_time + s.cooldown_time ≤ x) ∧
      (switchTimes s es).Pairwise (fun a b => s.cooldown_time ≤ b - a) := by
  induction es with
  | nil =>
    intro s h
    exact ⟨fun x hx => absurd hx (List.not_mem_nil x), List.Pairwise.nil⟩
  | cons e es ih =>
    intro s hc
    obtain ⟨hstamp, hcool⟩ := check_stamp s e
    have hc1 : 0 ≤ (check_resources_and_switch s e).1.cooldown_time := by
      rw [hcool]
      exact hc
    obtain ⟨ih1, ih2⟩ := ih (check_resources_and_switch s e).1 hc1
    rw [hcool] at ih2
    by_cases heq : (check_resources_and_switch s e).1.last_switch_time =
        s.last_switch_time
    · rw [switchTimes_cons_eq s e es heq]
      refine ⟨?_, ih2⟩
      intro x hx
      have hb := ih1 x hx
      rw [heq, hcool] at hb
      exact hb
    · rw [switchTimes_cons_ne s e es heq]
      obtain hO | ⟨hnow, hge⟩ := hstamp
      · exact absurd hO heq
      rw [hnow, hcool] at ih1
      constructor
      · intro x hx
        rcases List.mem_cons.mp hx with h | h
        · rw [h, hnow]
          linarith
        · have := ih1 x h
          linarith
      · refine List.Pairwise.cons ?_ ih2
        intro x hx
        have := ih1 x hx
        rw [hnow]
        linarith

theorem switch_decision_to_whisper (s : EngineState) (e : CallEnv)
    (ha : s.active_engine = "vosk")
    (hres : (switch_decision s e).1.active_engine = "whisper") :
    e.cpu < s.cpu_threshold - 15 ∧ e.memory < s.memory_threshold - 15 := by
  by_cases h1 : e.now - s.last_switch_time < s.cooldown_time
  · rw [switch_decision] at hres
    rw [if_pos h1] at hres
    rw [ha] at hres
    exact absurd hres (by decide)
  · have h2 : ¬ (s.active_engine = "whisper" ∧
        (s.cpu_threshold < e.cpu ∨ s.memory_threshold < e.memory)) := by
      rintro ⟨hcon, -⟩
      rw [ha] at hcon
      exact absurd hcon (by decide)
    by_cases h3 : s.active_engine = "vosk" ∧
        e.cpu < s.cpu_threshold - 15 ∧ e.memory < s.memory_threshold - 15
    · exact h3.2
    · rw [switch_decision] at hres
      rw [if_neg h1, if_neg h2, if_neg h3] at hres
      rw [ha] at hres
      exact absurd hres (by decide)

theorem switch_decision_keeps_vosk_at_half (s : EngineState) (e : CallEnv)
    (ha : s.active_engine = "vosk")
    (hcpu : e.cpu = s.cpu_threshold - 15 / 2) :
    (switch_decision s e).1.active_engine = "vosk" := by
  by_cases h1 : e.now - s.last_switch_time < s.cooldown_time
  · rw [switch_decision, if_pos h1]
    exact ha
  · have h2 : ¬ (s.active_engine = "whisper" ∧
        (s.cpu_threshold < e.cpu ∨ s.memory_threshold < e.memory)) := by
      rintro ⟨hcon, -⟩
      rw [ha] at hcon
      exact absurd hcon (by decide)
    have h3 : ¬ (s.active_engine = "vosk" ∧
        e.cpu < s.cpu_threshold - 15 ∧ e.memory < s.memory_threshold - 15) := by
      rintro ⟨-, hlt, -⟩
      rw [hcpu] at hlt
      linarith
    rw [switch_decision, if_neg h1, if_neg h2, if_neg h3]
    exact ha

/-! ### Claims about the RingBuffer and AudioCapturer -/

/-- Concrete run for claim C3: capacity-10 buffer, `write(b"12345")`,
`write(b"678")`, `read(5)` (byte values are the ASCII codes 49..56). -/
def C3run : List Nat × RingBuffer :=
  ((((RingBuffer.init 10).write [49, 50, 51, 52, 53]).1.write
    [54, 55, 56]).1).read 5

/-- Concrete capturer for claim C4: rate 4, chunk 3, 1 channel,
buffer duration 2 (ring of 8 bytes), freshly started (buffer empty). -/
def C4cap : AudioCapturer := AudioCapturer.init 4 3 1 2

/-- Concrete buffer for claim C7: capacity 3, `write([1,2])` then
`write([3,4])` — 4 bytes written in total, exceeding the capacity. -/
def C7buf : RingBuffer := (((RingBuffer.init 3).write [1, 2]).1.write [3, 4]).1

/-- C2: the claim says a short read returns exactly the available unread
bytes and never pads; on a fresh capacity-4 buffer (no unread bytes),
`read(2)` in fact returns two fabricated zero bytes. -/
theorem C2_counterexample :
    ((RingBuffer.init 4).read 2).1 = [0, 0] ∧
    (RingBuffer.init 4).unread = [] := by
  decide

/-- C2 (amended): when fewer than `length` unread bytes are available,
`read(length)` returns the available unread bytes in FIFO order followed
by `length - available` fabricated zero bytes. -/
theorem C2_corrected (s : RingBuffer) (len : Nat) (hw : s.wf)
    (h : s.avail < len) :
    (s.read len).1 = s.unread ++ List.replicate (len - s.avail) 0 :=
  s.read_gt len hw h

/-- Witness for C2 (amended) at the fresh capacity-4 buffer and `read(2)`. -/
theorem C2_corrected_witness :
    ((RingBuffer.init 4).read 2).1 =
      (RingBuffer.init 4).unread ++
        List.replicate (2 - (RingBuffer.init 4).avail) 0 :=
  C2_corrected (RingBuffer.init 4) 2 (by decide) (by decide)

/-- C3: the claim says the scenario yields `b"45678"`; with capacity 10 the
8 written bytes all fit, and `read(5)` returns the 5 OLDEST bytes
`b"12345"`, not the 5 most recent. -/
theorem C3_counterexample :
    C3run.1 ≠ [52, 53, 54, 55, 56] := by
  decide

/-- C3 (amended): on a fresh capacity-10 buffer, `write(b"12345")`,
`write(b"678")`, `read(5)` returns exactly `b"12345"` — the 5 oldest
unread bytes in FIFO order. -/
theorem C3_corrected : C3run.1 = [49, 50, 51, 52, 53] := by
  decide

/-- C4: the claim says `get_chunk` returns an empty result when the buffer
holds less than one frame; on an empty ring it in fact returns a full
frame of `chunk` fabricated zero bytes. -/
theorem C4_counterexample :
    C4cap.buffer.avail = 0 ∧ C4cap.get_chunk.1 = [0, 0, 0] ∧
    C4cap.get_chunk.1 ≠ [] := by
  decide

/-- C4 (amended): `get_chunk` never blocks (it is a total function of the
state) and, whenever fewer than `chunk` bytes are buffered, it returns a
frame-sized result consisting of the available bytes padded with zeros —
an empty result is never produced in that case. -/
theorem C4_corrected (c : AudioCapturer) (hw : c.buffer.wf)
    (h : c.buffer.avail < c.chunk) :
    c.get_chunk.1 = c.buffer.unread ++
      List.replicate (c.chunk - c.buffer.avail) 0 ∧
    c.get_chunk.1.length = c.chunk := by
  have hr := c.buffer.read_gt c.chunk hw h
  unfold AudioCapturer.get_chunk
  dsimp only
  refine ⟨hr, ?_⟩
  rw [hr, List.length_append, List.length_replicate,
    RingBuffer.unread_length]
  omega

/-- Witness for C4 (amended) at the concrete fresh capturer. -/
theorem C4_corrected_witness :
    C4cap.get_chunk.1 = C4cap.buffer.unread ++
      List.replicate (C4cap.chunk - C4cap.buffer.avail) 0 ∧
    C4cap.get_chunk.1.length = C4cap.chunk :=
  C4_corrected C4cap (by decide) (by decide)

/-- C7: the claim says that once more than `capacity` bytes have been
written the buffer retains exactly the most recent `capacity` bytes; a
capacity-3 buffer after writing 4 bytes retains only `[3, 4]`, not the 3
most recent bytes `[2, 3, 4]` (the implementation keeps one slot free). -/
theorem C7_counterexample :
    C7buf.unread = [3, 4] ∧ C7buf.unread ≠ [2, 3, 4] := by
  decide

/-- C7 (amended): after any sequence of writes into a fresh buffer (each
within the size bound), the unread contents are exactly the
most-recently-written `capacity - 1` bytes (or all bytes written, if
fewer) — one slot is sacrificed to distinguish full from empty — and the
overwrite counter never decreases across any sequence of write and read
operations. -/
theorem C7_corrected (N : Nat) (hN : 0 < N) (chunks : List (List Nat))
    (hc : ∀ c ∈ chunks, c.length ≤ N) (s : RingBuffer) (hw : s.wf)
    (ops : List BufOp) :
    ((RingBuffer.init N).runOps (chunks.map BufOp.write)).unread =
      lastN (N - 1) chunks.flatten ∧
    s.overwrites ≤ (s.runOps ops).overwrites := by
  constructor
  · rw [RingBuffer.runOps_writes chunks (RingBuffer.init N) hc,
      RingBuffer.init_writeAll_unread N hN]
  · exact RingBuffer.runOps_overwrites ops s hw

/-- Witness for C7 (amended): the capacity-3 scenario and a mixed
read/write operation sequence. -/
theorem C7_corrected_witness :
    ((RingBuffer.init 3).runOps ([[1, 2], [3, 4]].map BufOp.write)).unread =
      lastN (3 - 1) [[1, 2], [3, 4]].flatten ∧
    C7buf.overwrites ≤
      (C7buf.runOps [BufOp.read 1, BufOp.write [9]]).overwrites :=
  C7_corrected 3 (by decide) [[1, 2], [3, 4]] (by decide) C7buf (by decide)
    [BufOp.read 1, BufOp.write [9]]

/-- C8: writing any byte sequence shorter than the capacity into a fresh
buffer raises nothing, and reading back its length returns the sequence
unchanged and in order. -/
theorem C8_confirmed (N : Nat) (data : List Nat) (h : data.length < N) :
    ((RingBuffer.init N).write data).2 = none ∧
    ((((RingBuffer.init N).write data).1).read data.length).1 = data := by
  have hN : 0 < N := by omega
  have hsz : (RingBuffer.init N).size = N := rfl
  unfold RingBuffer.write
  split_ifs with hgt
  · rw [hsz] at hgt
    omega
  · dsimp only
    refine ⟨rfl, ?_⟩
    have hwW : ((RingBuffer.init N).writeAll data).wf :=
      RingBuffer.writeAll_wf data _ (RingBuffer.init_wf N hN)
    have hun := RingBuffer.init_writeAll_unread N hN data
    have hav : ((RingBuffer.init N).writeAll data).avail = data.length := by
      rw [← RingBuffer.unread_length, hun]
      unfold lastN
      rw [List.length_drop]
      omega
    have hread := ((RingBuffer.init N).writeAll data).read_le data.length hwW
      (by rw [hav])
    rw [hread, hun]
    unfold lastN
    rw [show data.length - (N - 1) = 0 by omega, List.drop_zero,
      List.take_length]

/-- Witness for C8 at capacity 5 and `data = [1, 2, 3]`. -/
theorem C8_confirmed_witness :
    ((RingBuffer.init 5).write [1, 2, 3]).2 = none ∧
    ((((RingBuffer.init 5).write [1, 2, 3]).1).read 3).1 = [1, 2, 3] :=
  C8_confirmed 5 [1, 2, 3] (by decide)

/-- C10: `write` raises exactly when `len(data) > capacity`, and a raising
call leaves the whole state (head, tail, store, overwrite counter)
untouched, because the size check precedes the byte loop. -/
theorem C10_confirmed (s : RingBuffer) (data : List Nat) :
    (((s.write data).2.isSome = true) ↔ data.length > s.size) ∧
    (data.length > s.size → (s.write data).1 = s) := by
  unfold RingBuffer.write
  split_ifs with hgt
  · exact ⟨⟨fun _ => hgt, fun _ => rfl⟩, fun _ => rfl⟩
  · refine ⟨⟨fun hcon => by simp at hcon, fun hcon => absurd hcon hgt⟩,
      fun hcon => absurd hcon hgt⟩

/-! ### Claims about the engine -/

/-- The engine branch taken when a Light-to-Heavy switch decision finds the
Heavy backend load failing: `active_engine` has already been set to
`"whisper"` when `_load_whisper` raises, so the raise leaves the engine on
`"whisper"` without a recorded switch timestamp, and the exception
propagates. -/
theorem switch_decision_whisper_load_fail (s : EngineState) (e : CallEnv)
    (h1 : s.active_engine = "vosk")
    (h4 : ¬ e.now - s.last_switch_time < s.cooldown_time)
    (h5 : e.cpu < s.cpu_threshold - 15)
    (h6 : e.memory < s.memory_threshold - 15)
    (h7 : s.whisper_loaded = false)
    (h8 : e.whisper_load_ok = false) :
    switch_decision s e = ({ s with active_engine := "whisper" },
      some "Failed to load Whisper model") := by
  unfold switch_decision
  rw [if_neg h4]
  rw [if_neg (by
    rintro ⟨hcon, -⟩
    rw [h1] at hcon
    exact absurd hcon (by decide))]
  rw [if_pos ⟨h1, h5, h6⟩]
  unfold load_whisper
  dsimp only
  rw [if_neg (by rw [h7]; decide), if_neg (by rw [h8]; decide)]

/-- Concrete engine state for claims C1 and C6: active Light backend
(`"vosk"`), thresholds 80/70, 5s check interval, 30s cooldown, check
counter already at 9 so the next call fires the resource check. -/
def C1state : EngineState := ⟨"vosk", 80, 70, 5, 30, 0, 0, 9, true, false⟩

/-- Concrete call environment for claim C1: low usage (so the selector
tries Light-to-Heavy), Heavy (`whisper`) load configured to fail. -/
def C1env : CallEnv := ⟨100, 100, 10, 10, true, false⟩

/-- Concrete recognizer outcomes (all successful; irrelevant to C1 since
the exception fires before any backend call). -/
def C1io : BackendCalls := ⟨.ok true, .ok "t", .ok "p", .ok "w"⟩

/-- C1: the claim says that on a Heavy-backend load failure the selector
stays on (or reverts to) Light and the per-chunk transcription call does
not propagate the failure; in fact `active_engine` is set to `"whisper"`
before the load, is not reverted, and the exception escapes `transcribe`. -/
theorem C1_counterexample :
    (transcribe C1state C1env C1io).1 =
      Except.error "Failed to load Whisper model" ∧
    (transcribe C1state C1env C1io).2.active_engine = "whisper" := by
  have hsd := switch_decision_whisper_load_fail
    { C1state with resource_check_counter := 0,
                   last_check_time := C1env.now_check }
    C1env (by decide) (by norm_num [C1state, C1env])
    (by norm_num [C1state, C1env]) (by norm_num [C1state, C1env])
    (by decide) (by decide)
  have hcheck : check_resources_and_switch C1state C1env =
      ({ C1state with resource_check_counter := 0,
                      last_check_time := C1env.now_check,
                      active_engine := "whisper" },
       some "Failed to load Whisper model") := by
    unfold check_resources_and_switch
    rw [show should_check_resources C1state C1env.now_check =
        (true, { C1state with resource_check_counter := 0,
                              last_check_time := C1env.now_check }) from by
      unfold should_check_resources
      rw [if_neg (by decide), if_neg (by norm_num [C1state, C1env])]]
    dsimp only
    rw [if_pos rfl, hsd]
  unfold transcribe
  rw [hcheck]
  exact ⟨rfl, rfl⟩

/-- C1 (amended): when the resource check fires during a Light-to-Heavy
decision, usage is below both hysteresis margins, and the Heavy backend
fails to load, `transcribe` propagates the load exception to its caller,
the engine is left with `active_engine = "whisper"` (not reverted to
Light), and no switch timestamp is recorded. -/
theorem C1_corrected (s : EngineState) (e : CallEnv) (io : BackendCalls)
    (h1 : s.active_engine = "vosk")
    (h2 : ¬ s.resource_check_counter + 1 < 10)
    (h3 : ¬ e.now_check - s.last_check_time < s.check_interval)
    (h4 : ¬ e.now - s.last_switch_time < s.cooldown_time)
    (h5 : e.cpu < s.cpu_threshold - 15)
    (h6 : e.memory < s.memory_threshold - 15)
    (h7 : s.whisper_loaded = false)
    (h8 : e.whisper_load_ok = false) :
    (transcribe s e io).1 = Except.error "Failed to load Whisper model" ∧
    (transcribe s e io).2.active_engine = "whisper" ∧
    (transcribe s e io).2.last_switch_time = s.last_switch_time := by
  have hsc : should_check_resources s e.now_check =
      (true, { s with resource_check_counter := 0,
                      last_check_time := e.now_check }) := by
    unfold should_check_resources
    rw [if_neg h2, if_neg h3]
  have hsd := switch_decision_whisper_load_fail
    { s with resource_check_counter := 0, last_check_time := e.now_check }
    e h1 h4 h5 h6 h7 h8
  have hcheck : check_resources_and_switch s e =
      ({ s with resource_check_counter := 0,
                last_check_time := e.now_check,
                active_engine := "whisper" },
       some "Failed to load Whisper model") := by
    unfold check_resources_and_switch
    rw [hsc]
    dsimp only
    rw [if_pos rfl, hsd]
  unfold transcribe
  rw [hcheck]
  exact ⟨rfl, rfl, rfl⟩

/-- Witness for C1 (amended) at the concrete failing scenario. -/
theorem C1_corrected_witness :
    (transcribe C1state C1env C1io).1 =
      Except.error "Failed to load Whisper model" ∧
    (transcribe C1state C1env C1io).2.active_engine = "whisper" ∧
    (transcribe C1state C1env C1io).2.last_switch_time =
      C1state.last_switch_time :=
  C1_corrected C1state C1env C1io (by decide) (by decide)
    (by norm_num [C1state, C1env]) (by norm_num [C1state, C1env])
    (by norm_num [C1state, C1env]) (by norm_num [C1state, C1env])
    (by decide) (by decide)

/-- C5: along any trace of calls into the switch-decision routine, the
recorded switch timestamps are pairwise at least `cooldown_time` apart —
no two switches ever occur within the cooldown window. -/
theorem C5_confirmed (s : EngineState) (es : List CallEnv)
    (hc : 0 ≤ s.cooldown_time) :
    (switchTimes s es).Pairwise (fun a b => s.cooldown_time ≤ b - a) :=
  (switchTimes_spec es s hc).2

/-- Concrete engine state for the C5 witness: active Heavy backend,
30s cooldown, zero check interval, counter at 9. -/
def C5state : EngineState := ⟨"whisper", 80, 70, 0, 30, 0, 0, 9, false, true⟩

/-- C5 witness trace: a high-usage call at t=50 (switch to Light), nine
throttled calls, then a low-usage call at t=90 (switch back to Heavy):
two switches, 40s apart. -/
def C5trace : List CallEnv :=
  ⟨50, 50, 95, 10, true, true⟩ ::
    (List.replicate 9 ⟨60, 60, 50, 50, true, true⟩ ++
      [⟨90, 90, 1, 1, true, true⟩])

/-- Witness for C5 at a trace that records two switches. -/
theorem C5_confirmed_witness :
    (switchTimes C5state C5trace).Pairwise
      (fun a b => C5state.cooldown_time ≤ b - a) :=
  C5_confirmed C5state C5trace (by norm_num [C5state])

/-- C6: a Light-to-Heavy switch happens only when the sampled cpu and
memory are both strictly below `threshold - 15` (the code's hysteresis
margin), and a sample with cpu exactly at `threshold - 15/2` never
triggers the switch. -/
theorem C6_confirmed (s : EngineState) (e : CallEnv)
    (ha : s.active_engine = "vosk") :
    ((check_resources_and_switch s e).1.active_engine = "whisper" →
      e.cpu < s.cpu_threshold - 15 ∧ e.memory < s.memory_threshold - 15) ∧
    (e.cpu = s.cpu_threshold - 15 / 2 →
      (check_resources_and_switch s e).1.active_engine = "vosk") := by
  constructor
  · intro hres
    unfold check_resources_and_switch at hres
    by_cases hg : (should_check_resources s e.now_check).1
    · rw [if_pos hg] at hres
      obtain ⟨f1, -, -, f4, f5, -, -⟩ := should_check_fields s e.now_check
      have hmain := switch_decision_to_whisper _ e (by rw [f1]; exact ha) hres
      rw [f4, f5] at hmain
      exact hmain
    · rw [if_neg hg] at hres
      rw [(should_check_fields s e.now_check).1, ha] at hres
      exact absurd hres (by decide)
  · intro hcpu
    unfold check_resources_and_switch
    by_cases hg : (should_check_resources s e.now_check).1
    · rw [if_pos hg]
      obtain ⟨f1, -, -, f4, -, -, -⟩ := should_check_fields s e.now_check
      exact switch_decision_keeps_vosk_at_half _ e (by rw [f1]; exact ha)
        (by rw [f4]; exact hcpu)
    · rw [if_neg hg]
      rw [(should_check_fields s e.now_check).1]
      exact ha

/-- Concrete environment for the C6 witness: cpu exactly at
`80 - 15/2 = 72.5`. -/
def C6env : CallEnv := ⟨100, 100, 80 - 15 / 2, 10, true, true⟩

/-- Witness for C6 at the concrete Light-active state. -/
theorem C6_confirmed_witness :
    ((check_resources_and_switch C1state C6env).1.active_engine = "whisper" →
      C6env.cpu < C1state.cpu_threshold - 15 ∧
      C6env.memory < C1state.memory_threshold - 15) ∧
    (C6env.cpu = C1state.cpu_threshold - 15 / 2 →
      (check_resources_and_switch C1state C6env).1.active_engine = "vosk") :=
  C6_confirmed C1state C6env (by decide)

/-- C9: provided the switch check itself raised nothing, a failure of the
active backend's own calls inside `transcribe` is caught and turned into
the empty string — for the vosk arm and the whisper arm alike. -/
theorem C9_confirmed (s : EngineState) (e : CallEnv) (io : BackendCalls)
    (err : String)
    (hok : (check_resources_and_switch s e).2 = none) :
    ((check_resources_and_switch s e).1.active_engine = "vosk" →
      (vosk_branch (check_resources_and_switch s e).1 e io).1 =
        Except.error err →
      (transcribe s e io).1 = Except.ok "") ∧
    ((check_resources_and_switch s e).1.active_engine = "whisper" →
      (whisper_branch (check_resources_and_switch s e).1 e io).1 =
        Except.error err →
      (transcribe s e io).1 = Except.ok "") := by
  have hpair : check_resources_and_switch s e =
      ((check_resources_and_switch s e).1, none) := by
    rw [← hok]
  constructor
  · intro hact hfail
    unfold transcribe
    rw [hpair]
    dsimp only
    rw [if_pos hact]
    have hv : vosk_branch (check_resources_and_switch s e).1 e io =
        (Except.error err,
          (vosk_branch (check_resources_and_switch s e).1 e io).2) := by
      rw [← hfail]
    rw [hv]
  · intro hact hfail
    unfold transcribe
    rw [hpair]
    dsimp only
    rw [if_neg (fun hcon => absurd (hact ▸ hcon) (by decide)), if_pos hact]
    have hw : whisper_branch (check_resources_and_switch s e).1 e io =
        (Except.error err,
          (whisper_branch (check_resources_and_switch s e).1 e io).2) := by
      rw [← hfail]
    rw [hw]

/-- Concrete state for the C9 witness: vosk active and loaded, counter low
so the switch check is throttled away. -/
def C9state : EngineState := ⟨"vosk", 80, 70, 5, 30, 0, 0, 0, true, false⟩

/-- Concrete environment for the C9 witness. -/
def C9env : CallEnv := ⟨1, 1, 50, 50, true, true⟩

/-- Recognizer outcomes for the C9 witness: `AcceptWaveform` raises. -/
def C9io : BackendCalls := ⟨.error "boom", .ok "t", .ok "p", .ok "w"⟩

/-- Witness for C9 at a concrete failing vosk call. -/
theorem C9_confirmed_witness :
    ((check_resources_and_switch C9state C9env).1.active_engine = "vosk" →
      (vosk_branch (check_resources_and_switch C9state C9env).1 C9env
        C9io).1 = Except.error "boom" →
      (transcribe C9state C9env C9io).1 = Except.ok "") ∧
    ((check_resources_and_switch C9state C9env).1.active_engine =
        "whisper" →
      (whisper_branch (check_resources_and_switch C9state C9env).1 C9env
        C9io).1 = Except.error "boom" →
      (transcribe C9state C9env C9io).1 = Except.ok "") :=
  C9_confirmed C9state C9env C9io "boom" rfl

end SmartLog
